import Mathlib

/-!
Verification of the vidrune lazy-indexing and search engine core.

This file gives a shallow embedding, in Lean 4, of the parts of the
repository that the specification's testable properties talk about:

* the data model (`SearchableContent`, `VideoIndexEntry`, `IndexStatus`,
  `IndexingQueueItem`) from `apps/server/src/models/video_models.py`;
* the in-memory index store (`MemoryStore`) from
  `apps/server/src/storage/memory_store.py`;
* the indexing queue bookkeeping of `IndexManager` from
  `apps/server/src/indexing/index_manager.py`;
* the search engine (`SearchEngine`) from
  `apps/backend/src/search/search_engine.py`, together with the LRU/TTL
  result cache from `apps/backend/src/utils/performance.py`.

Modelling conventions:

* Python `float` arithmetic is modelled by exact rational arithmetic (`ℚ`).
  Because the Mathlib/Batteries field operations on `ℚ` are `@[irreducible]`
  (so `decide` cannot evaluate them), the embedding uses kernel-computable
  wrappers `qadd`, `qmul`, `qdiv`, ... below, each proved equal to the
  corresponding `ℚ` operation.
* `datetime` values are modelled as natural-number timestamps (seconds);
  `datetime.utcnow()` becomes an explicit `now` argument.
* Python strings are modelled by `String`; `str.lower`, `str.split()`,
  `str.strip()`, substring search and the `in` operator are modelled
  character-by-character (faithful for the ASCII texts the code handles).
* Python `dict`s are modelled as insertion-ordered association lists, and
  Python `set`s by lists used up to membership.
* The spaCy NLP collaborator and the cosine-similarity routine are external
  (out of scope per the spec §6); they are modelled by an oracle record
  `SpacyOracle` supplying `process_document`, cosine similarity and
  lemmatization.  Exceptions raised by collaborators are not modelled: the
  oracle is total, matching the code's happy path.
* Wall-clock metrics (`query_time`, `processing_time`) are modelled as `0`;
  the counting metrics (`total_candidates`, `similarity_calculations`, ...)
  are modelled exactly.
-/

/-! ## Kernel-computable rational arithmetic

The Batteries implementations of `Rat.add`, `Rat.mul`, `Rat.inv` are
`@[irreducible]`, which blocks `decide` on any concrete score computation.
These wrappers compute with `mkRat` (which the kernel happily reduces) and
are proved equal to the standard field operations, so universal theorems can
rewrite to ordinary `ℚ` arithmetic while concrete witnesses evaluate. -/

def qadd (a b : ℚ) : ℚ := mkRat (a.num * b.den + b.num * a.den) (a.den * b.den)

def qmul (a b : ℚ) : ℚ := mkRat (a.num * b.num) (a.den * b.den)

def qinv (a : ℚ) : ℚ := Rat.divInt a.den a.num

def qdiv (a b : ℚ) : ℚ := qmul a (qinv b)

def qle (a b : ℚ) : Bool := decide (a ≤ b)

def qlt (a b : ℚ) : Bool := decide (a < b)

def qmin (a b : ℚ) : ℚ := if qle a b then a else b

def qmax (a b : ℚ) : ℚ := if qle a b then b else a

/-- Kernel-computable embedding of a natural number into `ℚ`. -/
def qofNat (n : Nat) : ℚ := mkRat (Int.ofNat n) 1

/-- Kernel-computable embedding of an integer into `ℚ`. -/
def qofInt (i : Int) : ℚ := mkRat i 1

/-! ## Python string primitives -/

/-- Python `str.lower()`, character by character. -/
def pyLower (s : String) : String := String.mk (s.toList.map Char.toLower)

/-- Whitespace split used by Python's argument-less `str.split()`:
splits on runs of whitespace and drops empty pieces. -/
def pySplitAux (acc : List Char) : List Char → List (List Char)
  | [] => if acc = [] then [] else [acc.reverse]
  | c :: cs =>
    if c.isWhitespace then
      if acc = [] then pySplitAux [] cs else acc.reverse :: pySplitAux [] cs
    else pySplitAux (c :: acc) cs

def pySplit (s : String) : List String := (pySplitAux [] s.toList).map String.mk

/-- Python `str.strip()`: drop leading and trailing whitespace. -/
def pyStrip (s : String) : String :=
  String.mk (((s.toList.dropWhile Char.isWhitespace).reverse.dropWhile
    Char.isWhitespace).reverse)

/-- Index of the first occurrence of `needle` in `hay` (`str.find`,
with `none` for Python's `-1`); positions count characters. -/
def findSubAux (needle : List Char) : List Char → Nat → Option Nat
  | [], i => if needle = [] then some i else none
  | c :: cs, i =>
    if needle.isPrefixOf (c :: cs) then some i else findSubAux needle cs (i + 1)

def strFind (hay needle : String) : Option Nat := findSubAux needle.toList hay.toList 0

/-- Python's substring operator `needle in hay`. -/
def strContains (hay needle : String) : Bool := (strFind hay needle).isSome

/-- First `n` characters, Python's `s[:n]`. -/
def strTake (s : String) (n : Nat) : String := String.mk (s.toList.take n)

/-- Character slice `s[a:b]` for `a ≤ b`. -/
def strSlice (s : String) (a b : Nat) : String :=
  String.mk ((s.toList.drop a).take (b - a))

/-! ## Data model (`apps/server/src/models/video_models.py`) -/

/-- The `ContentType` enumeration. -/
inductive ContentType where
  | captions_vtt
  | audio_transcript
  | tts_transcript
  | scene_description
  | metadata
deriving DecidableEq, Repr

/-- The `IndexStatus` enumeration. -/
inductive IndexStatus where
  | not_indexed
  | queued
  | indexing
  | indexed
  | error
  | outdated
deriving DecidableEq, Repr

/-- The `SearchableContent` dataclass.  The free-form `metadata` map (untyped
`Dict[str, Any]`, unused by every operation embedded here) is omitted. -/
structure SearchableContent where
  content_type : ContentType
  text : String
  source_file : Option String := none
  timestamp : Option Nat := none
  word_count : Nat := 0
  language : String := "en"
deriving DecidableEq, Repr

/-- The `VideoIndexEntry` dataclass.  `retry_count` is a `Nat`: in every
reachable state it is a non-negative Python int (default 0, only ever
incremented or copied from a queue item's non-negative count). -/
structure VideoIndexEntry where
  video_id : String
  title : String
  description : String
  owner : String
  created_at : Nat
  updated_at : Nat
  indexed_at : Option Nat := none
  status : IndexStatus := .not_indexed
  tags : List String := []
  searchable_content : List SearchableContent := []
  manifest_hash : Option String := none
  error_message : Option String := none
  retry_count : Nat := 0
  priority : Int := 0
deriving DecidableEq, Repr

/-- Embeds `VideoIndexEntry.get_content_by_type`. -/
def VideoIndexEntry.get_content_by_type (e : VideoIndexEntry) (ct : ContentType) :
    Option SearchableContent :=
  e.searchable_content.find? (fun c => c.content_type == ct)

/-- Embeds `VideoIndexEntry.get_all_text`: title, description, the tags joined by
spaces, and every non-empty content text, all joined by single spaces;
empty components are skipped. -/
def VideoIndexEntry.get_all_text (e : VideoIndexEntry) : String :=
  let texts :=
    (if e.title ≠ "" then [e.title] else []) ++
    (if e.description ≠ "" then [e.description] else []) ++
    (if e.tags ≠ [] then [String.intercalate " " e.tags] else []) ++
    (e.searchable_content.filterMap fun c => if c.text ≠ "" then some c.text else none)
  String.intercalate " " texts

/-- Embeds `VideoIndexEntry.mark_error`. -/
def VideoIndexEntry.mark_error (e : VideoIndexEntry) (msg : String) : VideoIndexEntry :=
  { e with
    status := .error
    error_message := some msg
    retry_count := e.retry_count + 1 }

/-- Embeds `VideoIndexEntry.mark_indexed`; `datetime.utcnow()` is the explicit
`now` argument. -/
def VideoIndexEntry.mark_indexed (e : VideoIndexEntry) (hash : String) (now : Nat) :
    VideoIndexEntry :=
  { e with
    status := .indexed
    indexed_at := some now
    manifest_hash := some hash
    error_message := none }

/-- The `IndexingQueueItem` dataclass. -/
structure IndexingQueueItem where
  video_id : String
  priority : Int
  queued_at : Nat
  retry_count : Nat := 0
  error_message : Option String := none
deriving DecidableEq, Repr

/-- Embeds `IndexingQueueItem.__lt__`: higher priority first, ties broken by
earlier enqueue time. -/
def IndexingQueueItem.lt (a b : IndexingQueueItem) : Bool :=
  if a.priority ≠ b.priority then decide (a.priority > b.priority)
  else decide (a.queued_at < b.queued_at)

/-! ## Priority-queue semantics (`queue.PriorityQueue` over `IndexingQueueItem`)

`IndexManager.indexing_queue` is a `queue.PriorityQueue`, i.e. a binary
min-heap ordered by `IndexingQueueItem.__lt__`.  Its observable dequeue
behaviour is: each `get` removes an element that is minimal with respect to
`__lt__` (no other queued element compares `<` to it).  `extractMin` models
one `get` (choosing the leftmost minimal element, one admissible heap
choice), and `drainQueue` models dequeuing until empty. -/

def extractMin : List IndexingQueueItem →
    Option (IndexingQueueItem × List IndexingQueueItem)
  | [] => none
  | x :: xs =>
    match extractMin xs with
    | none => some (x, [])
    | some (m, rest) =>
      if IndexingQueueItem.lt m x then some (m, x :: rest) else some (x, xs)

def drainAux : Nat → List IndexingQueueItem → List IndexingQueueItem
  | 0, _ => []
  | n + 1, l =>
    match extractMin l with
    | none => []
    | some (m, rest) => m :: drainAux n rest

/-- Dequeue repeatedly until the queue is empty; the fuel `l.length`
suffices because each extraction removes exactly one element. -/
def drainQueue (l : List IndexingQueueItem) : List IndexingQueueItem :=
  drainAux l.length l

/-! ## In-memory store (`apps/server/src/storage/memory_store.py`)

`MemoryStore._data` is a dict `video_id -> VideoIndexEntry`, modelled as an
insertion-ordered association list; `MemoryStore._text_index` is a
`defaultdict(set)` mapping each word to its posting set of video ids,
modelled as an association list of ids-lists used up to membership.
The `_lock` and access statistics are concurrency/observability plumbing
with no effect on results and are not modelled. -/

structure MemoryStore where
  _data : List (String × VideoIndexEntry)
  _text_index : List (String × List String)
deriving DecidableEq, Repr

/-- Dictionary assignment `d[k] = v`: replace in place if the key exists,
else append (insertion order). -/
def dictSet (m : List (String × VideoIndexEntry)) (k : String) (v : VideoIndexEntry) :
    List (String × VideoIndexEntry) :=
  if m.any (fun p => p.1 == k) then
    m.map (fun p => if p.1 == k then (k, v) else p)
  else m ++ [(k, v)]

/-- Dictionary lookup `d.get(k)`. -/
def dictGet (m : List (String × VideoIndexEntry)) (k : String) : Option VideoIndexEntry :=
  (m.find? (fun p => p.1 == k)).map (·.2)

/-- Word tokenization of `MemoryStore._build_text_index`: lowercase the
combined text, split on whitespace, keep only the alphanumeric characters of
each word, and index the distinct words with at least 2 characters. -/
def indexWords (e : VideoIndexEntry) : List String :=
  (((pySplit (pyLower e.get_all_text)).map
      (fun w => String.mk (w.toList.filter Char.isAlphanum))).filter
    (fun w => w.length ≥ 2)).dedup

/-- Add `video_id` to the posting set of `word` (`self._text_index[word].add(video_id)`). -/
def postingAdd (ti : List (String × List String)) (word vid : String) :
    List (String × List String) :=
  if ti.any (fun p => p.1 == word) then
    ti.map (fun p =>
      if p.1 == word then (p.1, if p.2.contains vid then p.2 else p.2 ++ [vid]) else p)
  else ti ++ [(word, [vid])]

/-- Embeds `MemoryStore._clear_text_index`: discard `video_id` from every
posting set and delete the words whose posting set becomes empty. -/
def MemoryStore.clear_text_index (ti : List (String × List String)) (vid : String) :
    List (String × List String) :=
  (ti.map (fun p => (p.1, p.2.filter (fun x => x ≠ vid)))).filter
    (fun p => !p.2.isEmpty)

/-- Embeds `MemoryStore._build_text_index`: clear the old postings of this
video, then add its id to the posting set of each indexed word. -/
def MemoryStore.build_text_index (ti : List (String × List String))
    (vid : String) (e : VideoIndexEntry) : List (String × List String) :=
  (indexWords e).foldl (fun acc w => postingAdd acc w vid)
    (MemoryStore.clear_text_index ti vid)

/-- Embeds `MemoryStore.store_video_index`. -/
def MemoryStore.store_video_index (st : MemoryStore) (e : VideoIndexEntry) :
    Bool × MemoryStore :=
  (true,
   { _data := dictSet st._data e.video_id e
     _text_index := MemoryStore.build_text_index st._text_index e.video_id e })

/-- Embeds `MemoryStore.get_video_index`. -/
def MemoryStore.get_video_index (st : MemoryStore) (vid : String) :
    Option VideoIndexEntry :=
  dictGet st._data vid

/-- Embeds `MemoryStore.delete_video_index`. -/
def MemoryStore.delete_video_index (st : MemoryStore) (vid : String) :
    Bool × MemoryStore :=
  if st._data.any (fun p => p.1 == vid) then
    (true,
     { _data := st._data.filter (fun p => !(p.1 == vid))
       _text_index := MemoryStore.clear_text_index st._text_index vid })
  else (false, st)

/-- Embeds `MemoryStore.get_videos_by_status`.  The Python function takes the
status as a string and converts it back through the `IndexStatus` enum
(returning `[]` on an invalid string); callers always pass
`IndexStatus.<X>.value`, so the embedding takes the enum value directly. -/
def MemoryStore.get_videos_by_status (st : MemoryStore) (status : IndexStatus) :
    List VideoIndexEntry :=
  (st._data.map (·.2)).filter (fun e => e.status == status)

/-- Embeds `MemoryStore.cleanup_old_entries`: an entry is old when
`indexed_at or updated_at` (the fallback applies when `indexed_at` is
`None`) is strictly before the cutoff; old entries are deleted through
`delete_video_index` and their number is returned. -/
def MemoryStore.cleanup_old_entries (st : MemoryStore) (cutoff : Nat) :
    Nat × MemoryStore :=
  let videos_to_remove :=
    (st._data.filter (fun p => (p.2.indexed_at.getD p.2.updated_at) < cutoff)).map (·.1)
  (videos_to_remove.length,
   videos_to_remove.foldl (fun s vid => (s.delete_video_index vid).2) st)

/-- Query tokenization of `MemoryStore.search_videos` (same cleanup as the
text index builder). -/
def searchQueryWords (query : String) : List String :=
  (((pySplit (pyLower query)).map
      (fun w => String.mk (w.toList.filter Char.isAlphanum))).filter
    (fun w => w.length ≥ 2)).dedup

/-- Embeds `MemoryStore.search_videos`, projected to the returned video ids
in order.  Each id found under some query word scores
`(matched words)/ (num query words)`; ids are sorted by score descending
(`sorted` is stable) and truncated to `limit`, then ids no longer present in
`_data` are dropped.  Snippet/metadata assembly copies entry fields and does
not affect which ids are returned. -/
def MemoryStore.search_videos_ids (st : MemoryStore) (query : String) (limit : Nat) :
    List String :=
  if pyStrip query = "" then []
  else
    let qws := searchQueryWords query
    if qws = [] then []
    else
      let ids := qws.foldl (fun acc w =>
        match st._text_index.find? (fun p => p.1 == w) with
        | some (_, vids) => vids.foldl (fun a v => if a.contains v then a else a ++ [v]) acc
        | none => acc) []
      let scores := ids.map (fun v =>
        (v, (qws.filter (fun w =>
          match st._text_index.find? (fun p => p.1 == w) with
          | some (_, vids) => vids.contains v
          | none => false)).length))
      let sorted := List.insertionSort (fun a b => b.2 ≤ a.2) scores
      ((sorted.take limit).map (·.1)).filter
        (fun v => st._data.any (fun p => p.1 == v))

/-! ## Indexing queue bookkeeping (`apps/server/src/indexing/index_manager.py`)

Only the queue-membership state touched by `queue_video_for_indexing` is
modelled: the priority queue's contents (a list of the items currently held
by the heap), the `processing_videos` set and the queue capacity
(`Config.MAX_QUEUE_SIZE`, default 1000, validated positive).  Background
threads, callbacks and statistics do not affect these claims. -/

structure IndexManagerState where
  indexing_queue : List IndexingQueueItem
  processing_videos : List String
  max_queue_size : Nat := 1000
deriving DecidableEq, Repr

/-- Embeds `IndexManager._is_video_in_queue` (drain the queue, remember the
items, and re-insert them; observationally a membership scan). -/
def IndexManagerState.is_video_in_queue (s : IndexManagerState) (vid : String) : Bool :=
  s.indexing_queue.any (fun item => item.video_id == vid)

/-- Embeds `IndexManager.queue_video_for_indexing`: refuse ids currently
processing, ids already queued, and enqueue on a full queue
(`PriorityQueue.put(..., block=False)` raises `Full`, caught and turned into
`False`); otherwise insert a fresh `IndexingQueueItem` stamped `now`. -/
def IndexManagerState.queue_video_for_indexing (s : IndexManagerState)
    (vid : String) (priority : Int) (now : Nat) : Bool × IndexManagerState :=
  if s.processing_videos.contains vid then (false, s)
  else if s.is_video_in_queue vid then (false, s)
  else if s.indexing_queue.length ≥ s.max_queue_size then (false, s)
  else
    (true,
     { s with indexing_queue :=
        s.indexing_queue ++ [{ video_id := vid, priority := priority, queued_at := now }] })

/-! ## Result cache (`LRUCache` from `apps/backend/src/utils/performance.py`)

An `OrderedDict` plus a timestamp table: entries are kept in recency order
(front = least recently used); `get` expires entries older than the TTL,
else moves the hit to the back; `put` (re)inserts at the back and evicts
from the front while over capacity.  The hit/miss/eviction counters are
observability only and are not modelled. -/

structure LRUCache (α : Type) where
  max_size : Nat := 1000
  ttl_seconds : Option Nat := none
  entries : List (String × α × Nat)
deriving DecidableEq

/-- Embeds `LRUCache._remove` restricted to `_cache`/`_timestamps`. -/
def LRUCache.removeKey (es : List (String × α × Nat)) (k : String) :
    List (String × α × Nat) :=
  es.filter (fun e => !(e.1 == k))

/-- Embeds `LRUCache._is_expired`. -/
def LRUCache.isExpired (c : LRUCache α) (now ts : Nat) : Bool :=
  match c.ttl_seconds with
  | none => false
  | some ttl => now - ts > ttl

/-- Embeds `LRUCache.get`.  Returns the value (or `none`) together with the
mutated cache (expired entry dropped, or hit entry moved to the back). -/
def LRUCache.get (c : LRUCache α) (k : String) (now : Nat) :
    Option α × LRUCache α :=
  match c.entries.find? (fun e => e.1 == k) with
  | none => (none, c)
  | some (_, v, ts) =>
    if c.isExpired now ts then
      (none, { c with entries := LRUCache.removeKey c.entries k })
    else
      (some v, { c with entries := LRUCache.removeKey c.entries k ++ [(k, v, ts)] })

/-- The `while len > max: evict front` loop of `LRUCache.put`. -/
def LRUCache.evictOldest (max : Nat) : List (String × α × Nat) → List (String × α × Nat)
  | [] => []
  | x :: t => if t.length + 1 > max then LRUCache.evictOldest max t else x :: t

/-- Embeds `LRUCache.put`: drop any existing entry for the key, append the
new entry stamped `now`, then evict the oldest entries while over capacity. -/
def LRUCache.put (c : LRUCache α) (k : String) (v : α) (now : Nat) : LRUCache α :=
  { c with entries := (LRUCache.evictOldest c.max_size
      (LRUCache.removeKey c.entries k ++ [(k, v, now)])) }

/-! ## Search engine (`apps/backend/src/search/search_engine.py`) -/

/-- The `SearchQuery` dataclass; the dataclass defaults are the Lean field
defaults (`threshold` default 0.5). -/
structure SearchQuery where
  text : String
  limit : Nat := 10
  threshold : ℚ := mkRat 1 2
  content_types : Option (List ContentType) := none
  tags : Option (List String) := none
  date_range : Option (Nat × Nat) := none
  boost_recent : Bool := false
  exact_match : Bool := false
deriving DecidableEq

/-- The `SearchMetrics` dataclass (wall-clock fields modelled as 0). -/
structure SearchMetrics where
  query_time : ℚ := 0
  total_candidates : Nat
  filtered_candidates : Nat
  final_results : Nat
  processing_time : ℚ := 0
  similarity_calculations : Nat
deriving DecidableEq

/-- The `SearchResult` dataclass (from `video_models.py`). -/
structure SearchResult where
  video_id : String
  title : String
  description : String
  relevance_score : ℚ
  matched_content : List SearchableContent
  snippet : String
  tags : List String := []
  created_at : Option Nat := none
  owner : Option String := none
deriving DecidableEq

/-- A `ProcessedDocument` as returned by the spaCy collaborator
(`SpacyProcessor.process_document`); `V` is the abstract vector type.
Entities/POS/sentences are unused by the search engine and omitted. -/
structure ProcessedDocument (V : Type) where
  text : String
  tokens : List String
  lemmas : List String
  vector : Option V
deriving DecidableEq

/-- Oracle for the external NLP collaborator (spec §6): document
processing, cosine similarity of vectors (`sklearn cosine_similarity`), and
the first-token lemma used by spell correction. -/
structure SpacyOracle (V : Type) where
  processDoc : String → ProcessedDocument V
  cosine : V → V → ℚ
  lemmaOf : String → String

/-- Mutable engine state: the query cache and the hit counters. -/
structure SearchState where
  query_cache : LRUCache (List SearchResult)
  search_count : Nat := 0
  cache_hits : Nat := 0
deriving DecidableEq

/-- The engine's cache as constructed in `SearchEngine.__init__`:
`max_size=500, ttl_seconds=300`. -/
def initialSearchState : SearchState :=
  { query_cache := { max_size := 500, ttl_seconds := some 300, entries := [] } }

/-- Embeds `SearchEngine._process_search_query`: `None` on empty/blank
query text, else the processed stripped text. -/
def processSearchQuery (o : SpacyOracle V) (query_text : String) :
    Option (ProcessedDocument V) :=
  if pyStrip query_text = "" then none else some (o.processDoc (pyStrip query_text))

/-- Python truthiness of an optional list (`if query.tags:`): `None` and the
empty list are both falsy. -/
def truthyList : Option (List α) → Option (List α)
  | some (x :: xs) => some (x :: xs)
  | _ => none

/-- Embeds `SearchEngine._get_search_candidates`: all `INDEXED` entries,
narrowed by the content-type, tag and date-range filters when present. -/
def getSearchCandidates (store : MemoryStore) (q : SearchQuery) :
    List VideoIndexEntry :=
  let c0 := store.get_videos_by_status .indexed
  let c1 := match truthyList q.content_types with
    | some cts => c0.filter (fun e => cts.any (fun ct => (e.get_content_by_type ct).isSome))
    | none => c0
  let c2 := match truthyList q.tags with
    | some qtags =>
      c1.filter (fun e =>
        (qtags.map pyLower).any (fun t => (e.tags.map pyLower).contains t))
    | none => c1
  match q.date_range with
  | some (start_date, end_date) =>
    c2.filter (fun e => start_date ≤ e.created_at ∧ e.created_at ≤ end_date)
  | none => c2

/-- Embeds `SearchEngine._calculate_vector_similarity`: the collaborator's
cosine similarity clamped to [0, 1]. -/
def calcVectorSimilarity (o : SpacyOracle V) (v1 v2 : V) : ℚ :=
  qmax 0 (qmin 1 (o.cosine v1 v2))

/-- Embeds `SearchEngine._get_content_type_weight`. -/
def getContentTypeWeight : ContentType → ℚ
  | .captions_vtt => mkRat 3 2
  | .audio_transcript => mkRat 13 10
  | .tts_transcript => mkRat 6 5
  | .scene_description => 1
  | .metadata => mkRat 4 5

/-- Embeds `SearchEngine._calculate_keyword_score`: the fraction of the
query's alphabetic lemmas of length > 2 (lowercased, as a set) that occur
verbatim among the candidate's lowercased whitespace-split words. -/
def calcKeywordScore (pq : ProcessedDocument V) (cand : VideoIndexEntry) : ℚ :=
  if pq.tokens = [] then 0
  else
    let query_keywords :=
      ((pq.lemmas.filter (fun l => decide (l.length > 2) && l.toList.all Char.isAlpha)).map
        pyLower).dedup
    if query_keywords = [] then 0
    else
      let candidate_words := (pySplit (pyLower cand.get_all_text)).dedup
      let matched := query_keywords.filter (fun k => candidate_words.contains k)
      if matched ≠ [] then qdiv (qofNat matched.length) (qofNat query_keywords.length) else 0

/-- Embeds `SearchEngine._calculate_tag_score`. -/
def calcTagScore (query_tags candidate_tags : List String) : ℚ :=
  if query_tags = [] ∨ candidate_tags = [] then 0
  else
    let qset := (query_tags.map pyLower).dedup
    let cset := (candidate_tags.map pyLower).dedup
    let matched := qset.filter (fun t => cset.contains t)
    if matched ≠ [] then qdiv (qofNat matched.length) (qofNat qset.length) else 0

/-- Embeds `SearchEngine._calculate_recency_score`: linear decay from 1 at
age 0 to 0 at 30 days; `timedelta.days` floor-divides by 86400 seconds. -/
def calcRecencyScore (now : Nat) (cand : VideoIndexEntry) : ℚ :=
  let days_old : Int := (Int.ofNat now - Int.ofNat cand.created_at).fdiv 86400
  if days_old ≤ 30 then qdiv (qofInt (30 - days_old)) 30 else 0

/-- Embeds `SearchEngine._calculate_relevance_score`: weighted sub-scores
(title 3, description 2, each content unit by its content-type weight,
keyword overlap 1, tag overlap 1 when tags are queried, recency 0.5 when
requested), normalized by the weights actually applied and clamped to
[0, 1]. -/
def calcRelevanceScore (o : SpacyOracle V) (now : Nat) (pq : ProcessedDocument V)
    (cand : VideoIndexEntry) (q : SearchQuery) : ℚ :=
  let vecPart : ℚ × ℚ :=
    match pq.vector with
    | none => (0, 0)
    | some qv =>
      let tPart : ℚ × ℚ :=
        if cand.title ≠ "" then
          match (o.processDoc cand.title).vector with
          | some tv => (qmul (calcVectorSimilarity o qv tv) 3, 3)
          | none => (0, 0)
        else (0, 0)
      let dPart : ℚ × ℚ :=
        if cand.description ≠ "" then
          match (o.processDoc cand.description).vector with
          | some dv => (qmul (calcVectorSimilarity o qv dv) 2, 2)
          | none => (0, 0)
        else (0, 0)
      let cPart : ℚ × ℚ :=
        cand.searchable_content.foldl (fun acc content =>
          if content.text ≠ "" then
            match (o.processDoc (strTake content.text 1000)).vector with
            | some cv =>
              let w := getContentTypeWeight content.content_type
              (qadd acc.1 (qmul (calcVectorSimilarity o qv cv) w), qadd acc.2 w)
            | none => acc
          else acc) (0, 0)
      (qadd (qadd tPart.1 dPart.1) cPart.1, qadd (qadd tPart.2 dPart.2) cPart.2)
  let withKw : ℚ × ℚ :=
    (qadd vecPart.1 (calcKeywordScore pq cand), qadd vecPart.2 1)
  let withTags : ℚ × ℚ :=
    match truthyList q.tags with
    | some qtags => (qadd withKw.1 (calcTagScore qtags cand.tags), qadd withKw.2 1)
    | none => withKw
  let withRecency : ℚ × ℚ :=
    if q.boost_recent then
      (qadd withTags.1 (qmul (calcRecencyScore now cand) (mkRat 1 2)),
       qadd withTags.2 (mkRat 1 2))
    else withTags
  if qlt 0 withRecency.2 then qmin 1 (qmax 0 (qdiv withRecency.1 withRecency.2))
  else 0

/-- Embeds `SearchEngine._rank_search_results`: keep candidates whose score
reaches the query threshold, then stable-sort by score descending (Python
`list.sort(key=..., reverse=True)` is a stable sort; `List.insertionSort`
with a total preorder is stable in the same sense, hence produces the same
list). -/
def rankSearchResults (o : SpacyOracle V) (now : Nat) (pq : ProcessedDocument V)
    (candidates : List VideoIndexEntry) (q : SearchQuery) :
    List (VideoIndexEntry × ℚ) :=
  let scored := candidates.filterMap (fun c =>
    let r := calcRelevanceScore o now pq c q
    if qle q.threshold r then some (c, r) else none)
  List.insertionSort (fun a b => qle b.2 a.2 = true) scored

/-- Embeds `SearchEngine._content_matches_query`: some query word longer
than 2 characters occurs in the content text (both lowercased). -/
def contentMatchesQuery (content_text query_text : String) : Bool :=
  if content_text = "" ∨ query_text = "" then false
  else
    let content_lower := pyLower content_text
    (pySplit (pyLower query_text)).any
      (fun w => decide (w.length > 2) && strContains content_lower w)

/-- Embeds `SearchEngine._create_snippet`: window of 200 characters starting
50 before the first query word found in the combined text, with ellipsis
markers when truncated, finally stripped. -/
def createSnippet (entry : VideoIndexEntry) (query_text : String) : String :=
  let all_text := entry.get_all_text
  if all_text = "" then ""
  else
    let query_words := pySplit (pyLower query_text)
    let text_lower := pyLower all_text
    let best_pos :=
      match query_words.findSome? (fun w => strFind text_lower w) with
      | some pos => pos - 50
      | none => 0
    let snippet_end := min all_text.length (best_pos + 200)
    let snippet := strSlice all_text best_pos snippet_end
    let snippet := if best_pos > 0 then "..." ++ snippet else snippet
    let snippet := if snippet_end < all_text.length then snippet ++ "..." else snippet
    pyStrip snippet

/-- Embeds `SearchEngine._apply_final_filters`: truncate to `query.limit`
and build the `SearchResult` records (snippet, matched content, copied
metadata). -/
def applyFinalFilters (ranked : List (VideoIndexEntry × ℚ)) (q : SearchQuery) :
    List SearchResult :=
  (ranked.take q.limit).map (fun er =>
    { video_id := er.1.video_id
      title := er.1.title
      description := er.1.description
      relevance_score := er.2
      matched_content := er.1.searchable_content.filter
        (fun c => contentMatchesQuery c.text q.text)
      snippet := createSnippet er.1 q.text
      tags := er.1.tags
      created_at := some er.1.created_at
      owner := some er.1.owner })

/-- Rendering helpers for `SearchEngine._generate_cache_key` (Python joins
`str(...)` of every query field with `|`; the exact textual rendering of
each field is irrelevant as long as it is a function of the field, which is
what these provide). -/
def renderContentType : ContentType → String
  | .captions_vtt => "captions.vtt"
  | .audio_transcript => "audio-transcript.txt"
  | .tts_transcript => "tts-transcript.txt"
  | .scene_description => "scene-description"
  | .metadata => "metadata"

def renderOptList (f : α → String) : Option (List α) → String
  | none => "None"
  | some xs => "[" ++ String.intercalate ", " (xs.map f) ++ "]"

def renderRat (r : ℚ) : String := toString r.num ++ "/" ++ toString r.den

def renderBool : Bool → String
  | true => "True"
  | false => "False"

/-- Embeds `SearchEngine._generate_cache_key`. -/
def generateCacheKey (q : SearchQuery) : String :=
  String.intercalate "|"
    [q.text, toString q.limit, renderRat q.threshold,
     renderOptList renderContentType q.content_types,
     renderOptList id q.tags,
     (match q.date_range with
      | none => "None"
      | some (a, b) => "(" ++ toString a ++ ", " ++ toString b ++ ")"),
     renderBool q.boost_recent, renderBool q.exact_match]

/-- The body of `SearchEngine.search` after a cache miss (query processing,
candidate retrieval, ranking, final filtering, caching, metrics). -/
def searchCore (o : SpacyOracle V) (store : MemoryStore) (st : SearchState)
    (q : SearchQuery) (now : Nat) :
    List SearchResult × SearchMetrics × SearchState :=
  match processSearchQuery o q.text with
  | none =>
    ([],
     { query_time := 0
       total_candidates := 0
       filtered_candidates := 0
       final_results := 0
       processing_time := 0
       similarity_calculations := 0 }, st)
  | some pq =>
    let candidates := getSearchCandidates store q
    let ranked := rankSearchResults o now pq candidates q
    let final_results := applyFinalFilters ranked q
    let qc' := st.query_cache.put (generateCacheKey q) final_results now
    let st' := { st with query_cache := qc' }
    (final_results,
     { total_candidates := candidates.length
       filtered_candidates := ranked.length
       final_results := final_results.length
       similarity_calculations := candidates.length },
     st')

/-- Embeds `SearchEngine.search`: cache lookup first — a cached **non-empty**
result list (`if cached_results:` truthiness) is returned with zero-cost
metrics; otherwise the full pipeline `searchCore` runs. -/
def search (o : SpacyOracle V) (store : MemoryStore) (st : SearchState)
    (q : SearchQuery) (now : Nat) :
    List SearchResult × SearchMetrics × SearchState :=
  let st0 := { st with search_count := st.search_count + 1 }
  let key := generateCacheKey q
  let got := st0.query_cache.get key now
  let st1 := { st0 with query_cache := got.2 }
  match got.1 with
  | some (r :: rs) =>
    ((r :: rs),
     { total_candidates := 0
       filtered_candidates := 0
       final_results := (r :: rs).length
       similarity_calculations := 0 },
     { st1 with cache_hits := st1.cache_hits + 1 })
  | some [] => searchCore o store st1 q now
  | none => searchCore o store st1 q now

/-! ## Phrase search and pagination -/

/-- Scan for the closing quote: content before it and the rest after it,
or `none` when the quote is unmatched. -/
def splitAtQuote : List Char → Option (List Char × List Char)
  | [] => none
  | c :: cs =>
    if c = '"' then some ([], cs)
    else (splitAtQuote cs).map (fun p => (c :: p.1, p.2))

/-- Fuelled scanner for the regex `"([^"]*)"` of
`SearchEngine._parse_query_phrases`: collects the quoted phrases
(non-overlapping, left to right) and the remaining characters with the
matched spans removed; an unmatched quote is left in place.  The fuel
`length + 1` never runs out because each step consumes at least one
character. -/
def parsePhrasesAux : Nat → List Char → List String × List Char
  | 0, cs => ([], cs)
  | _ + 1, [] => ([], [])
  | fuel + 1, c :: cs =>
    if c = '"' then
      match splitAtQuote cs with
      | some (ph, rest) =>
        let pr := parsePhrasesAux fuel rest
        (String.mk ph :: pr.1, pr.2)
      | none => ([], c :: cs)
    else
      let pr := parsePhrasesAux fuel cs
      (pr.1, c :: pr.2)

/-- Embeds `SearchEngine._parse_query_phrases`: quoted phrases, and the
whitespace-split words of the remaining text. -/
def parseQueryPhrases (query_text : String) : List String × List String :=
  let pr := parsePhrasesAux (query_text.toList.length + 1) query_text.toList
  (pr.1, pySplit (String.mk pr.2))

/-- The hard-coded typo table of `SearchEngine._spell_correct_word`. -/
def spellCorrections : List (String × String) :=
  [("teh", "the"), ("adn", "and"), ("taht", "that"), ("wiht", "with"),
   ("thier", "their"), ("recieve", "receive"), ("seperate", "separate"),
   ("definately", "definitely")]

/-- Embeds `SearchEngine._spell_correct_word`: words shorter than 3 pass
through; else the spaCy first-token lemma (lowercased) is used when it
differs from the lowercased word and is purely alphabetic (Python
`''.isalpha()` is false, hence the non-emptiness guard); else the typo
table keyed on the lowercased word. -/
def spellCorrectWord (o : SpacyOracle V) (word : String) : String :=
  if word.length < 3 then word
  else
    let lem := pyLower (o.lemmaOf word)
    if lem ≠ pyLower word ∧ lem ≠ "" ∧ lem.toList.all Char.isAlpha then lem
    else
      match spellCorrections.find? (fun p => p.1 == pyLower word) with
      | some p => p.2
      | none => word

/-- Text checked by `SearchEngine._search_with_phrases` for each result:
`(title + " " + description + " " + " ".join(matched content texts)).lower()`. -/
def phraseCheckText (r : SearchResult) : String :=
  pyLower (r.title ++ " " ++ r.description ++ " " ++
    String.intercalate " " (r.matched_content.map (·.text)))

/-- Embeds `SearchEngine._search_with_phrases`: regular search, then (when
phrases are present) keep only results whose check text contains every
phrase (lowercased), boost each survivor's score by 1.2 clamped to 1, and
re-sort by score descending. -/
def searchWithPhrases (o : SpacyOracle V) (store : MemoryStore) (st : SearchState)
    (q : SearchQuery) (phrases : List String) (now : Nat) :
    List SearchResult × SearchMetrics × SearchState :=
  let rms := search o store st q now
  if phrases = [] then rms
  else
    let kept := (rms.1.filter (fun r =>
        phrases.all (fun p => strContains (phraseCheckText r) (pyLower p)))).map
      (fun r => { r with relevance_score := qmin 1 (qmul r.relevance_score (mkRat 6 5)) })
    (List.insertionSort
       (fun a b => qle b.relevance_score a.relevance_score = true) kept,
     rms.2.1, rms.2.2)

/-- Modelled from the spec: the backend's `Config` module is not under
`src/`; per the server-side `Config` and spec §4.5 the similarity threshold
defaults to 0.5. -/
def SIMILARITY_THRESHOLD : ℚ := mkRat 1 2

/-- Embeds `SearchEngine.search_with_phrase_support`: parse out quoted
phrases, spell-correct the residual words, rebuild the query text (corrected
words, then the re-quoted phrases), and run the phrase search at the
configured threshold. -/
def searchWithPhraseSupport (o : SpacyOracle V) (store : MemoryStore)
    (st : SearchState) (query_text : String) (limit : Nat) (now : Nat) :
    List SearchResult × SearchState :=
  let pw := parseQueryPhrases query_text
  let corrected_words := pw.2.map (spellCorrectWord o)
  let corrected_query0 := String.intercalate " " corrected_words
  let corrected_query :=
    if pw.1 ≠ [] then
      corrected_query0 ++ " " ++
        String.intercalate " " (pw.1.map (fun p => "\"" ++ p ++ "\""))
    else corrected_query0
  let sq : SearchQuery :=
    { text := corrected_query, limit := limit, threshold := SIMILARITY_THRESHOLD }
  let rms := searchWithPhrases o store st sq pw.1 now
  (rms.1, rms.2.2)

/-- Pagination report of `SearchEngine.search_with_pagination`. -/
structure PaginatedResponse where
  results : List SearchResult
  current_page : Nat
  page_size : Nat
  total_results : Nat
  total_pages : Nat
  has_next : Bool
  has_previous : Bool
deriving DecidableEq

/-- Embeds `SearchEngine.search_with_pagination` (the `filters=None` call
pattern, which builds a plain `SearchQuery` with default threshold): search
with the over-fetch limit `offset + page_size * 2`, report
`total_results = len(all_results)`,
`total_pages = ceil(total_results / page_size)`, and slice the requested
page out of the over-fetched list. -/
def searchWithPagination (o : SpacyOracle V) (store : MemoryStore)
    (st : SearchState) (query_text : String) (page page_size : Nat) (now : Nat) :
    PaginatedResponse × SearchState :=
  let offset := (page - 1) * page_size
  let total_limit := offset + page_size * 2
  let rms := search o store st { text := query_text, limit := total_limit } now
  let all_results := rms.1
  let total_results := all_results.length
  let total_pages := (total_results + page_size - 1) / page_size
  ({ results := (all_results.drop offset).take page_size
     current_page := page
     page_size := page_size
     total_results := total_results
     total_pages := total_pages
     has_next := decide (page < total_pages)
     has_previous := decide (page > 1) },
   rms.2.2)

/-! ## Derived definitions used by the analysis -/

/-- Python truthiness of `cached_results` in `SearchEngine.search`
(`None` and `[]` are falsy). -/
def isTruthy : Option (List α) → Bool
  | some (_ :: _) => true
  | _ => false

/-- The ranked candidate list that `search_with_pagination` draws from for a
given query text; the relevance pipeline never reads `query.limit`, so this
is the same list for every page's over-fetch limit. -/
def pagAllRanked (o : SpacyOracle V) (store : MemoryStore) (query_text : String)
    (now : Nat) : List (VideoIndexEntry × ℚ) :=
  match processSearchQuery o query_text with
  | none => []
  | some pq =>
    rankSearchResults o now pq
      (getSearchCandidates store { text := query_text }) { text := query_text }

/-! ## Concrete test fixtures -/

/-- Oracle whose documents all carry a vector and whose cosine similarity is
the constant `s`. -/
def constOracle (s : ℚ) : SpacyOracle Unit where
  processDoc := fun t => { text := t, tokens := pySplit t, lemmas := pySplit t, vector := some () }
  cosine := fun _ _ => s
  lemmaOf := fun w => w

/-- Oracle with no document vectors at all (keyword scoring only). -/
def noVecOracle : SpacyOracle Unit where
  processDoc := fun s => { text := s, tokens := pySplit s, lemmas := pySplit s, vector := none }
  cosine := fun _ _ => 0
  lemmaOf := fun w => w

def sampleEntry : VideoIndexEntry :=
  { video_id := "v1"
    title := "t"
    description := "d"
    owner := "own"
    created_at := 0
    updated_at := 0 }

def sampleQueueState : IndexManagerState :=
  { indexing_queue := [{ video_id := "v1", priority := 1, queued_at := 0 }]
    processing_videos := [] }

def emptyStore : MemoryStore := { _data := [], _text_index := [] }

def cleanupEntryOld : VideoIndexEntry :=
  { sampleEntry with video_id := "old1", updated_at := 10 }

def cleanupEntryNew : VideoIndexEntry :=
  { sampleEntry with video_id := "new1", updated_at := 50 }

def cleanupStore : MemoryStore :=
  { _data := [("old1", cleanupEntryOld), ("new1", cleanupEntryNew)]
    _text_index := [] }

def hitEntry : VideoIndexEntry :=
  { video_id := "v1"
    title := "hello"
    description := "hello world"
    owner := "own"
    created_at := 0
    updated_at := 0
    status := .indexed }

def hitStore : MemoryStore := { _data := [("v1", hitEntry)], _text_index := [] }

def hitQuery : SearchQuery := { text := "hello" }

/-- Engine state whose cache holds an empty result list for `hitQuery`
(stored at time 0), as left behind by a zero-result search. -/
def emptyCachedState : SearchState :=
  { query_cache :=
      { max_size := 500
        ttl_seconds := some 300
        entries := [(generateCacheKey hitQuery, ([] : List SearchResult), 0)] } }

/-- Processed query used by the relevance-score analysis: one lemma `cat`,
carrying a vector. -/
def cexQueryDoc : ProcessedDocument Unit :=
  { text := "cat", tokens := ["cat"], lemmas := ["cat"], vector := some () }

/-- Candidate matching only on title (plus the keyword signal). -/
def candA8 : VideoIndexEntry :=
  { video_id := "a"
    title := "cat"
    description := ""
    owner := "own"
    created_at := 0
    updated_at := 0
    status := .indexed }

/-- The same candidate with description and captions content added. -/
def candB8 : VideoIndexEntry :=
  { candA8 with
    description := "cat"
    searchable_content := [{ content_type := .captions_vtt, text := "cat" }] }

def q8 : SearchQuery := { text := "cat" }

/-- Candidate for the phrase-search analysis: the phrase `big cat` spans the
description/content boundary of the code's check string, while
`get_all_text` interposes the tag `x` between them. -/
def phraseEntry : VideoIndexEntry :=
  { video_id := "v1"
    title := "t"
    description := "big"
    owner := "own"
    created_at := 0
    updated_at := 0
    status := .indexed
    tags := ["x"]
    searchable_content := [{ content_type := .captions_vtt, text := "cat food" }] }

def phraseStore : MemoryStore := { _data := [("v1", phraseEntry)], _text_index := [] }

/-- The `SearchQuery` that `search_with_phrase_support` builds for the raw
query `"big cat" food` (word `food` is its own lemma, so spell correction
keeps it; the phrase is re-appended quoted). -/
def phraseSQ : SearchQuery :=
  { text := "food \"big cat\"", limit := 10, threshold := SIMILARITY_THRESHOLD }

def defaultSearchResult : SearchResult :=
  { video_id := ""
    title := ""
    description := ""
    relevance_score := 0
    matched_content := []
    snippet := "" }

def phraseBase : SearchResult :=
  (search noVecOracle phraseStore initialSearchState phraseSQ 0).1.headD defaultSearchResult

def phraseBoosted : SearchResult :=
  { phraseBase with relevance_score := qmin 1 (qmul phraseBase.relevance_score (mkRat 6 5)) }

def hitEntry2 : VideoIndexEntry := { hitEntry with video_id := "v2" }

/-- Store with two indexed videos sharing their words, built through the
store's own write path. -/
def c5Store : MemoryStore :=
  ((emptyStore.store_video_index hitEntry).2.store_video_index hitEntry2).2

/-- The pagination fixture: 25 indexed videos all matching the query
`hello`. -/
def pagEntry (i : Nat) : VideoIndexEntry :=
  { video_id := "v" ++ toString i
    title := "hello"
    description := "hello world"
    owner := "own"
    created_at := 0
    updated_at := 0
    status := .indexed }

def pagStore : MemoryStore :=
  { _data := (List.range 25).map (fun i => ("v" ++ toString i, pagEntry i))
    _text_index := [] }

/-! # Theorems

First the supporting lemmas, then one theorem per claim (with its witness
or counterexample where required). -/

theorem qadd_eq (a b : ℚ) : qadd a b = a + b := (Rat.add_def' a b).symm

theorem qmul_eq (a b : ℚ) : qmul a b = a * b := by
  rw [Rat.mul_def, qmul, Rat.mkRat_def]
  simp [Nat.mul_ne_zero a.den_nz b.den_nz]

theorem qinv_eq (a : ℚ) : qinv a = a⁻¹ := (Rat.inv_def' a).symm

theorem qdiv_eq (a b : ℚ) : qdiv a b = a / b := by
  rw [qdiv, qmul_eq, qinv_eq, div_eq_mul_inv]

theorem qofNat_eq (n : Nat) : qofNat n = (n : ℚ) := by
  rw [qofNat, Rat.mkRat_one]
  simp

theorem qofInt_eq (i : Int) : qofInt i = (i : ℚ) := by
  rw [qofInt, Rat.mkRat_one]

theorem qle_iff (a b : ℚ) : qle a b = true ↔ a ≤ b := by simp [qle]

theorem qlt_iff (a b : ℚ) : qlt a b = true ↔ a < b := by simp [qlt]

theorem qmin_eq (a b : ℚ) : qmin a b = min a b := by
  simp only [qmin, qle, min_def]
  split <;> split <;> simp_all

theorem qmax_eq (a b : ℚ) : qmax a b = max a b := by
  simp only [qmax, qle, max_def]
  split <;> split <;> simp_all

/-! ## Claim C4: mark_indexed / mark_error transitions -/

/-- C4: `mark_indexed` leaves the entry `INDEXED` with a non-null
`indexed_at` and a cleared `error_message`; `mark_error` (with the non-empty
message every caller passes) leaves it `ERROR` with that message set and
`retry_count` incremented by exactly one, hence at least 1. -/
theorem C4_mark_transitions (e : VideoIndexEntry) (hash msg : String) (now : Nat)
    (hmsg : msg ≠ "") :
    (e.mark_indexed hash now).status = .indexed ∧
    (e.mark_indexed hash now).indexed_at = some now ∧
    (e.mark_indexed hash now).indexed_at ≠ none ∧
    (e.mark_indexed hash now).error_message = none ∧
    (e.mark_error msg).status = .error ∧
    (e.mark_error msg).error_message = some msg ∧
    (e.mark_error msg).error_message ≠ some "" ∧
    (e.mark_error msg).error_message ≠ none ∧
    (e.mark_error msg).retry_count = e.retry_count + 1 ∧
    1 ≤ (e.mark_error msg).retry_count := by
  refine ⟨rfl, rfl, by simp [VideoIndexEntry.mark_indexed], rfl, rfl, rfl, ?_,
    by simp [VideoIndexEntry.mark_error], rfl, by simp [VideoIndexEntry.mark_error]⟩
  simp [VideoIndexEntry.mark_error, hmsg]

/-- Witness for C4 at a concrete entry and message. -/
theorem C4_mark_transitions_witness :
    (sampleEntry.mark_indexed "h1" 7).status = .indexed ∧
    (sampleEntry.mark_error "boom").retry_count = 1 :=
  ⟨(C4_mark_transitions sampleEntry "h1" "boom" 7 (by decide)).1,
   (C4_mark_transitions sampleEntry "h1" "boom" 7 (by decide)).2.2.2.2.2.2.2.2.1⟩

/-! ## Claim C6: no duplicate enqueue -/

/-- C6: enqueueing an id that is already queued or currently processing
returns `False`, and `queue_video_for_indexing` preserves the absence of
duplicate video ids in the queue (so a snapshot never shows two items with
one id). -/
theorem C6_no_duplicate_enqueue (s : IndexManagerState) (vid : String) (p : Int)
    (now : Nat) :
    ((vid ∈ s.processing_videos ∨ s.is_video_in_queue vid = true) →
      (s.queue_video_for_indexing vid p now).1 = false) ∧
    ((s.indexing_queue.map (·.video_id)).Nodup →
      (((s.queue_video_for_indexing vid p now).2).indexing_queue.map (·.video_id)).Nodup) := by
  constructor
  · rintro (hmem | hq)
    · simp [IndexManagerState.queue_video_for_indexing, List.elem_iff, hmem]
    · simp only [IndexManagerState.queue_video_for_indexing, hq]
      split <;> simp
  · intro hnd
    by_cases h1 : vid ∈ s.processing_videos
    · simp [IndexManagerState.queue_video_for_indexing, h1, hnd]
    · by_cases h2 : s.is_video_in_queue vid = true
      · simp [IndexManagerState.queue_video_for_indexing, h1, h2, hnd]
      · by_cases h3 : s.max_queue_size ≤ s.indexing_queue.length
        · simp [IndexManagerState.queue_video_for_indexing, h1, h2, h3, hnd]
        · rw [IndexManagerState.queue_video_for_indexing.eq_def]
          rw [if_neg (by simpa using h1), if_neg h2, if_neg h3]
          simp only [List.map_append, List.map_cons, List.map_nil]
          rw [List.nodup_append]
          refine ⟨hnd, List.nodup_singleton _, ?_⟩
          intro a ha hb
          simp only [List.mem_singleton] at hb
          subst hb
          obtain ⟨item, hitem, hid⟩ := List.mem_map.mp ha
          exact h2 (by
            simp only [IndexManagerState.is_video_in_queue, List.any_eq_true]
            exact ⟨item, hitem, by simp [hid]⟩)

/-- Witness for C6 at a concrete state with `v1` already queued. -/
theorem C6_no_duplicate_enqueue_witness :
    (sampleQueueState.queue_video_for_indexing "v1" 2 5).1 = false ∧
    (((sampleQueueState.queue_video_for_indexing "v1" 2 5).2).indexing_queue.map
      (·.video_id)).Nodup :=
  ⟨(C6_no_duplicate_enqueue sampleQueueState "v1" 2 5).1 (Or.inr (by decide)),
   (C6_no_duplicate_enqueue sampleQueueState "v1" 2 5).2 (by decide)⟩

/-! ## Claim C3: priority-queue drain order -/

theorem itemLt_asymm {a b : IndexingQueueItem} (h : IndexingQueueItem.lt a b = true) :
    IndexingQueueItem.lt b a = false := by
  simp only [IndexingQueueItem.lt] at *
  split at h <;> split <;> simp_all <;> omega

theorem itemLt_neg_trans {a b c : IndexingQueueItem}
    (hab : IndexingQueueItem.lt a b = false) (hbc : IndexingQueueItem.lt b c = false) :
    IndexingQueueItem.lt a c = false := by
  simp only [IndexingQueueItem.lt] at *
  split at hab <;> split at hbc <;> split <;> simp_all <;> omega

theorem extractMin_eq_none {l : List IndexingQueueItem} :
    extractMin l = none ↔ l = [] := by
  cases l with
  | nil => simp [extractMin]
  | cons x xs =>
    simp only [extractMin]
    cases h : extractMin xs with
    | none => simp
    | some p => cases p with | mk m rest => by_cases hlt : IndexingQueueItem.lt m x <;> simp [hlt]

theorem extractMin_perm {l : List IndexingQueueItem}
    {m : IndexingQueueItem} {rest : List IndexingQueueItem}
    (h : extractMin l = some (m, rest)) : (m :: rest).Perm l := by
  induction l generalizing m rest with
  | nil => simp [extractMin] at h
  | cons x xs ih =>
    simp only [extractMin] at h
    cases hx : extractMin xs with
    | none =>
      rw [hx] at h
      have hxs : xs = [] := extractMin_eq_none.mp hx
      simp only [Option.some.injEq, Prod.mk.injEq] at h
      obtain ⟨rfl, rfl⟩ := h
      simp [hxs]
    | some p =>
      cases p with
      | mk m' rest' =>
        rw [hx] at h
        have hperm : (m' :: rest').Perm xs := ih hx
        by_cases hlt : IndexingQueueItem.lt m' x
        · simp only [hlt, if_true] at h
          simp only [Option.some.injEq, Prod.mk.injEq] at h
          obtain ⟨rfl, rfl⟩ := h
          exact (List.Perm.swap x m' rest').trans (List.Perm.cons x hperm)
        · simp only [hlt] at h
          simp only [if_neg, Option.some.injEq, Prod.mk.injEq, Bool.false_eq_true] at h
          obtain ⟨rfl, rfl⟩ := h
          exact List.Perm.refl _

theorem extractMin_min {l : List IndexingQueueItem}
    {m : IndexingQueueItem} {rest : List IndexingQueueItem}
    (h : extractMin l = some (m, rest)) :
    ∀ y ∈ rest, IndexingQueueItem.lt y m = false := by
  induction l generalizing m rest with
  | nil => simp [extractMin] at h
  | cons x xs ih =>
    simp only [extractMin] at h
    cases hx : extractMin xs with
    | none =>
      rw [hx] at h
      simp only [Option.some.injEq, Prod.mk.injEq] at h
      obtain ⟨rfl, rfl⟩ := h
      intro y hy
      simp at hy
    | some p =>
      cases p with
      | mk m' rest' =>
        rw [hx] at h
        have hmin' := ih hx
        by_cases hlt : IndexingQueueItem.lt m' x
        · simp only [hlt, if_true, Option.some.injEq, Prod.mk.injEq] at h
          obtain ⟨rfl, rfl⟩ := h
          intro y hy
          rcases List.mem_cons.mp hy with rfl | hy'
          · exact itemLt_asymm hlt
          · exact hmin' y hy'
        · simp only [hlt, Bool.false_eq_true, if_neg, Option.some.injEq,
            Prod.mk.injEq] at h
          obtain ⟨rfl, rfl⟩ := h
          intro y hy
          have hy' : y ∈ m' :: rest' := (extractMin_perm hx).mem_iff.mpr hy
          have hm'x : IndexingQueueItem.lt m' x = false := by
            simpa using hlt
          rcases List.mem_cons.mp hy' with rfl | hyr
          · exact hm'x
          · exact itemLt_neg_trans (hmin' y hyr) hm'x

theorem drainAux_subset {n : Nat} {l : List IndexingQueueItem} :
    ∀ x ∈ drainAux n l, x ∈ l := by
  induction n generalizing l with
  | zero => simp [drainAux]
  | succ n ih =>
    intro x hx
    simp only [drainAux] at hx
    cases h : extractMin l with
    | none => rw [h] at hx; simp at hx
    | some p =>
      cases p with
      | mk m rest =>
        rw [h] at hx
        rcases List.mem_cons.mp hx with rfl | hx'
        · exact (extractMin_perm h).mem_iff.mp (List.mem_cons_self _ _)
        · exact (extractMin_perm h).mem_iff.mp (List.mem_cons_of_mem _ (ih x hx'))

theorem drainAux_perm {n : Nat} {l : List IndexingQueueItem} (hn : l.length ≤ n) :
    (drainAux n l).Perm l := by
  induction n generalizing l with
  | zero =>
    have : l = [] := List.length_eq_zero.mp (Nat.le_zero.mp hn)
    simp [this, drainAux]
  | succ n ih =>
    simp only [drainAux]
    cases h : extractMin l with
    | none => simp [extractMin_eq_none.mp h]
    | some p =>
      cases p with
      | mk m rest =>
        have hperm := extractMin_perm h
        have hlen : rest.length ≤ n := by
          have := hperm.length_eq
          simp only [List.length_cons] at this
          omega
        exact (List.Perm.cons m (ih hlen)).trans hperm

theorem drainAux_sorted {n : Nat} {l : List IndexingQueueItem} :
    (drainAux n l).Pairwise (fun a b => IndexingQueueItem.lt b a = false) := by
  induction n generalizing l with
  | zero => simp [drainAux]
  | succ n ih =>
    simp only [drainAux]
    cases h : extractMin l with
    | none => simp
    | some p =>
      cases p with
      | mk m rest =>
        refine List.Pairwise.cons ?_ ih
        intro b hb
        exact extractMin_min h b (drainAux_subset b hb)

/-- C3: draining the indexing queue (modelled as repeated extraction of a
`__lt__`-minimal item, the observable behaviour of `queue.PriorityQueue`)
returns every enqueued item, in non-increasing priority order with ties in
non-decreasing enqueue-time order. -/
theorem C3_dequeue_order (l : List IndexingQueueItem) :
    (drainQueue l).Perm l ∧
    (drainQueue l).Pairwise (fun a b =>
      b.priority ≤ a.priority ∧ (a.priority = b.priority → a.queued_at ≤ b.queued_at)) := by
  constructor
  · exact drainAux_perm le_rfl
  · refine List.Pairwise.imp ?_ (drainAux_sorted (n := l.length))
    intro a b hlt
    simp only [IndexingQueueItem.lt] at hlt
    constructor
    · split at hlt <;> simp_all
    · intro hpr
      split at hlt <;> simp_all

/-! ## Claim C5: put/get/delete round trips and posting-set hygiene -/

theorem find?_append_key (k : String) (v : VideoIndexEntry) :
    ∀ (m : List (String × VideoIndexEntry)), (∀ p ∈ m, (p.1 == k) = false) →
    Option.map (fun x => x.2) ((m ++ [(k, v)]).find? (fun p => p.1 == k)) = some v := by
  intro m
  induction m with
  | nil => simp
  | cons a t ih =>
    intro hall
    rw [List.cons_append,
      List.find?_cons_of_neg _ (by simp [hall a (List.mem_cons_self a t)])]
    exact ih (fun p hp => hall p (List.mem_cons_of_mem a hp))

theorem find?_set_key (k : String) (v : VideoIndexEntry) :
    ∀ (m : List (String × VideoIndexEntry)), m.any (fun p => p.1 == k) = true →
    Option.map (fun x => x.2)
      ((m.map (fun p => if p.1 == k then (k, v) else p)).find? (fun p => p.1 == k)) =
      some v := by
  intro m
  induction m with
  | nil => simp
  | cons a t ih =>
    intro hany
    simp only [List.map_cons]
    cases ha : a.1 == k with
    | true =>
      rw [if_pos rfl, List.find?_cons_of_pos _ (by simp)]
      rfl
    | false =>
      rw [if_neg (by simp [ha]), List.find?_cons_of_neg _ (by simp [ha])]
      apply ih
      simpa [ha] using hany

theorem dictGet_dictSet_self (m : List (String × VideoIndexEntry)) (k : String)
    (v : VideoIndexEntry) : dictGet (dictSet m k v) k = some v := by
  by_cases hany : m.any (fun p => p.1 == k) = true
  · simp only [dictSet, hany, if_true, dictGet]
    exact find?_set_key k v m hany
  · simp only [dictSet, if_neg hany, dictGet]
    refine find?_append_key k v m ?_
    intro p hp
    by_contra hc
    exact hany (List.any_eq_true.mpr ⟨p, hp, by simpa using hc⟩)

theorem delete_get_none (st : MemoryStore) (vid : String) :
    (st.delete_video_index vid).2.get_video_index vid = none := by
  simp only [MemoryStore.delete_video_index]
  by_cases hany : st._data.any (fun p => p.1 == vid) = true
  · rw [if_pos hany]
    simp only [MemoryStore.get_video_index, dictGet]
    rw [List.find?_eq_none.mpr]
    · rfl
    · intro p hp
      have h2 := (List.mem_filter.mp hp).2
      simpa using h2
  · rw [if_neg hany]
    simp only [MemoryStore.get_video_index, dictGet]
    rw [List.find?_eq_none.mpr]
    · rfl
    · intro p hp hpk
      exact hany (List.any_eq_true.mpr ⟨p, hp, hpk⟩)

theorem delete_clears_postings (st : MemoryStore) (vid : String)
    (hdel : (st.delete_video_index vid).1 = true) :
    ∀ w ids, (w, ids) ∈ (st.delete_video_index vid).2._text_index → vid ∉ ids := by
  intro w ids hmem hvid
  simp only [MemoryStore.delete_video_index] at hdel hmem
  by_cases hany : st._data.any (fun p => p.1 == vid) = true
  · rw [if_pos hany] at hmem
    simp only [MemoryStore.clear_text_index] at hmem
    obtain ⟨hmem', -⟩ := List.mem_filter.mp hmem
    obtain ⟨p, -, hp⟩ := List.mem_map.mp hmem'
    have hids : ids = p.2.filter (fun x => x ≠ vid) := by
      have := congrArg Prod.snd hp
      simpa using this.symm
    rw [hids] at hvid
    have := (List.mem_filter.mp hvid).2
    simp at this
  · rw [if_neg hany] at hdel
    simp at hdel

theorem delete_search_absent (st : MemoryStore) (vid : String) :
    ∀ q lim, vid ∉ (st.delete_video_index vid).2.search_videos_ids q lim := by
  intro q lim hmem
  have hkey : ((st.delete_video_index vid).2)._data.any (fun p => p.1 == vid) = false := by
    simp only [MemoryStore.delete_video_index]
    by_cases hany : st._data.any (fun p => p.1 == vid) = true
    · rw [if_pos hany]
      rw [List.any_eq_false]
      intro p hp
      have h2 := (List.mem_filter.mp hp).2
      simpa using h2
    · rw [if_neg hany]
      simp only [Bool.not_eq_true] at hany
      exact hany
  simp only [MemoryStore.search_videos_ids] at hmem
  split at hmem
  · simp at hmem
  · split at hmem
    · simp at hmem
    · have := (List.mem_filter.mp hmem).2
      rw [hkey] at this
      exact absurd this (by simp)

/-- C5: storing an entry then reading its id returns the stored entry;
deleting an id then reading it reports absence; a successful delete leaves
the id in no posting set of the inverted text index; and a word search on
the store after the delete never returns the deleted id. -/
theorem C5_store_roundtrip (st : MemoryStore) (e : VideoIndexEntry) (vid : String) :
    (st.store_video_index e).2.get_video_index e.video_id = some e ∧
    (st.delete_video_index vid).2.get_video_index vid = none ∧
    ((st.delete_video_index vid).1 = true →
      ∀ w ids, (w, ids) ∈ (st.delete_video_index vid).2._text_index → vid ∉ ids) ∧
    (∀ q lim, vid ∉ (st.delete_video_index vid).2.search_videos_ids q lim) := by
  refine ⟨?_, delete_get_none st vid, delete_clears_postings st vid,
    delete_search_absent st vid⟩
  simp only [MemoryStore.store_video_index, MemoryStore.get_video_index]
  exact dictGet_dictSet_self st._data e.video_id e

/-- Witness for C5 on a concrete two-video store. -/
theorem C5_store_roundtrip_witness :
    (c5Store.store_video_index sampleEntry).2.get_video_index "v1" = some sampleEntry ∧
    (c5Store.delete_video_index "v1").2.get_video_index "v1" = none ∧
    "v1" ∉ (["v2"] : List String) ∧
    "v1" ∉ (c5Store.delete_video_index "v1").2.search_videos_ids "hello" 10 :=
  ⟨(C5_store_roundtrip c5Store sampleEntry "v1").1,
   (C5_store_roundtrip c5Store sampleEntry "v1").2.1,
   (C5_store_roundtrip c5Store sampleEntry "v1").2.2.1 (by decide) "hello" ["v2"] (by decide),
   (C5_store_roundtrip c5Store sampleEntry "v1").2.2.2 "hello" 10⟩

/-! ## Claim C10: cleanup falls back to updated_at -/

theorem delete_data_eq (st : MemoryStore) (vid : String) :
    (st.delete_video_index vid).2._data = st._data.filter (fun p => !(p.1 == vid)) := by
  simp only [MemoryStore.delete_video_index]
  by_cases hany : st._data.any (fun p => p.1 == vid) = true
  · rw [if_pos hany]
  · rw [if_neg hany]
    refine (List.filter_eq_self.mpr ?_).symm
    intro p hp
    by_contra hc
    refine hany (List.any_eq_true.mpr ⟨p, hp, ?_⟩)
    simpa using hc

theorem foldl_delete_data (ids : List String) :
    ∀ (st : MemoryStore),
    (ids.foldl (fun s v => (s.delete_video_index v).2) st)._data =
      st._data.filter (fun p => !(ids.any (fun v => p.1 == v))) := by
  induction ids with
  | nil =>
    intro st
    simp
  | cons v ids ih =>
    intro st
    rw [List.foldl_cons, ih, delete_data_eq, List.filter_filter]
    apply List.filter_congr
    intro p hp
    simp only [List.any_cons, Bool.not_or]
    rw [Bool.and_comm]

theorem nodupKeys_inj {l : List (String × VideoIndexEntry)}
    (h : (l.map Prod.fst).Nodup) :
    ∀ {p p' : String × VideoIndexEntry}, p ∈ l → p' ∈ l → p.1 = p'.1 → p = p' := by
  induction l with
  | nil =>
    intro p p' hp
    simp at hp
  | cons a t ih =>
    intro p p' hp hp' hk
    simp only [List.map_cons, List.nodup_cons] at h
    rcases List.mem_cons.mp hp with rfl | hpt
    · rcases List.mem_cons.mp hp' with rfl | hp't
      · rfl
      · exact absurd (hk ▸ List.mem_map_of_mem Prod.fst hp't) h.1
    · rcases List.mem_cons.mp hp' with rfl | hp't
      · exact absurd (hk ▸ List.mem_map_of_mem Prod.fst hpt) h.1
      · exact ih h.2 hpt hp't hk

theorem find?_filter_key (g : String × VideoIndexEntry → Bool) (vid : String) :
    ∀ (l : List (String × VideoIndexEntry)), (l.map Prod.fst).Nodup →
    ∀ {pr : String × VideoIndexEntry},
    l.find? (fun p => p.1 == vid) = some pr →
    (l.filter g).find? (fun p => p.1 == vid) = if g pr then some pr else none := by
  intro l
  induction l with
  | nil =>
    intro _ pr hfind
    simp at hfind
  | cons a t ih =>
    intro hnd pr hfind
    simp only [List.map_cons, List.nodup_cons] at hnd
    cases ha : a.1 == vid with
    | true =>
      rw [List.find?_cons_of_pos (p := fun q : String × VideoIndexEntry => q.1 == vid) t ha] at hfind
      have hapr : a = pr := by simpa using hfind
      subst hapr
      have hvid : a.1 = vid := by simpa using ha
      have htnone : ∀ x ∈ t.filter g, ((fun p => p.1 == vid) x) = false := by
        intro x hx
        have hxt := (List.mem_filter.mp hx).1
        have hxm : x.1 ∈ t.map Prod.fst := List.mem_map_of_mem _ hxt
        have : x.1 ≠ vid := fun hxe => hnd.1 (hvid ▸ hxe ▸ hxm)
        simpa using this
      rw [List.filter_cons]
      cases hg : g a with
      | true =>
        simp only [if_true]
        exact List.find?_cons_of_pos (p := fun q : String × VideoIndexEntry => q.1 == vid) _ ha
      | false =>
        simp only [Bool.false_eq_true, if_neg, if_false]
        rw [List.find?_eq_none.mpr (fun x hx => by simp [htnone x hx])]
    | false =>
      rw [List.find?_cons_of_neg (p := fun q : String × VideoIndexEntry => q.1 == vid) t (by simp [ha])] at hfind
      rw [List.filter_cons]
      cases hg : g a with
      | true =>
        simp only [if_true]
        rw [List.find?_cons_of_neg _ (by simp [ha])]
        exact ih hnd.2 hfind
      | false =>
        simp only [Bool.false_eq_true, if_neg, if_false]
        exact ih hnd.2 hfind

theorem length_filter_not_add (p : α → Bool) (l : List α) :
    (l.filter p).length + (l.filter (fun a => !(p a))).length = l.length := by
  induction l with
  | nil => simp
  | cons a t ih =>
    cases h : p a <;> simp only [List.filter_cons, h] <;> simp <;> omega

/-- C10: `cleanup_old_entries` uses `indexed_at or updated_at`, so an entry
never successfully indexed (`indexed_at` null) is removed exactly when its
`updated_at` is older than the cutoff; an entry whose effective timestamp is
not older than the cutoff is retained unchanged; and the returned count is
the number of entries removed. -/
theorem C10_cleanup_fallback (st : MemoryStore) (cutoff : Nat)
    (hnd : (st._data.map Prod.fst).Nodup) :
    (∀ vid e, st.get_video_index vid = some e → e.indexed_at = none →
      ((st.cleanup_old_entries cutoff).2.get_video_index vid = none ↔
        e.updated_at < cutoff)) ∧
    (∀ vid e, st.get_video_index vid = some e →
      ¬ (e.indexed_at.getD e.updated_at < cutoff) →
      (st.cleanup_old_entries cutoff).2.get_video_index vid = some e) ∧
    (st.cleanup_old_entries cutoff).1 =
      st._data.length - (st.cleanup_old_entries cutoff).2._data.length := by
  have hdata : (st.cleanup_old_entries cutoff).2._data =
      st._data.filter
        (fun p => !(decide (p.2.indexed_at.getD p.2.updated_at < cutoff))) := by
    simp only [MemoryStore.cleanup_old_entries]
    rw [foldl_delete_data]
    refine List.filter_congr ?_
    intro p hp
    congr 1
    cases hold : decide (p.2.indexed_at.getD p.2.updated_at < cutoff) with
    | true =>
      refine List.any_eq_true.mpr ⟨p.1, ?_, by simp⟩
      exact List.mem_map_of_mem _ (List.mem_filter.mpr ⟨hp, hold⟩)
    | false =>
      refine List.any_eq_false.mpr ?_
      intro v hv hbeq
      obtain ⟨p', hp', rfl⟩ := List.mem_map.mp hv
      have hpp' : p = p' :=
        nodupKeys_inj hnd hp (List.mem_filter.mp hp').1 (by simpa using hbeq)
      rw [hpp'] at hold
      rw [(List.mem_filter.mp hp').2] at hold
      simp at hold
  constructor
  · intro vid e hv hidx
    obtain ⟨pr, hfind, hpr2⟩ := Option.map_eq_some'.mp hv
    have holdpr : decide (pr.2.indexed_at.getD pr.2.updated_at < cutoff)
        = decide (e.updated_at < cutoff) := by
      rw [hpr2, hidx]
      rfl
    simp only [MemoryStore.get_video_index, dictGet, hdata]
    rw [find?_filter_key _ vid st._data hnd hfind]
    constructor
    · intro hnone
      by_contra hlt
      rw [holdpr] at hnone
      simp [decide_eq_false hlt] at hnone
    · intro hlt
      rw [holdpr]
      simp [decide_eq_true_eq, hlt]
  · constructor
    · intro vid e hv hnotold
      obtain ⟨pr, hfind, hpr2⟩ := Option.map_eq_some'.mp hv
      simp only [MemoryStore.get_video_index, dictGet, hdata]
      rw [find?_filter_key _ vid st._data hnd hfind]
      have : decide (pr.2.indexed_at.getD pr.2.updated_at < cutoff) = false := by
        rw [hpr2]
        exact decide_eq_false hnotold
      rw [this]
      simpa using hpr2
    · have hcnt : (st.cleanup_old_entries cutoff).1 =
          (st._data.filter
            (fun p => decide (p.2.indexed_at.getD p.2.updated_at < cutoff))).length := by
        simp [MemoryStore.cleanup_old_entries]
      rw [hcnt, hdata]
      have := length_filter_not_add
        (fun p : String × VideoIndexEntry =>
          decide (p.2.indexed_at.getD p.2.updated_at < cutoff)) st._data
      omega

/-- Witness for C10 on a concrete store: an entry with null `indexed_at` and
`updated_at = 10` is removed by a cutoff of 30, one with `updated_at = 50`
is retained, and the count is the number removed. -/
theorem C10_cleanup_fallback_witness :
    ((cleanupStore.cleanup_old_entries 30).2.get_video_index "old1" = none) ∧
    ((cleanupStore.cleanup_old_entries 30).2.get_video_index "new1" =
      some cleanupEntryNew) ∧
    (cleanupStore.cleanup_old_entries 30).1 =
      cleanupStore._data.length - (cleanupStore.cleanup_old_entries 30).2._data.length :=
  ⟨((C10_cleanup_fallback cleanupStore 30 (by decide)).1 "old1" cleanupEntryOld
      (by decide) (by decide)).mpr (by decide),
   (C10_cleanup_fallback cleanupStore 30 (by decide)).2.1 "new1" cleanupEntryNew
      (by decide) (by decide),
   (C10_cleanup_fallback cleanupStore 30 (by decide)).2.2⟩

/-! ## Claims C7 and C9: cache hit round trip, empty lists never served -/

theorem find?_append_last {α : Type} (k : String) (kv : String × α × Nat)
    (hk : (kv.1 == k) = true) :
    ∀ xs : List (String × α × Nat), (∀ e ∈ xs, (e.1 == k) = false) →
    (xs ++ [kv]).find? (fun e => e.1 == k) = some kv := by
  intro xs
  induction xs with
  | nil =>
    intro _
    simp only [List.nil_append]
    exact List.find?_cons_of_pos _ hk
  | cons a t ih =>
    intro hall
    rw [List.cons_append,
      List.find?_cons_of_neg _ (by simp [hall a (List.mem_cons_self a t)])]
    exact ih (fun e he => hall e (List.mem_cons_of_mem a he))

theorem evictOldest_find {α : Type} (max : Nat) (hmax : 1 ≤ max) (k : String)
    (v : α) (ts : Nat) :
    ∀ (xs : List (String × α × Nat)), (∀ e ∈ xs, (e.1 == k) = false) →
    (LRUCache.evictOldest max (xs ++ [(k, v, ts)])).find? (fun e => e.1 == k) =
      some (k, v, ts) := by
  intro xs
  induction xs with
  | nil =>
    intro _
    simp only [List.nil_append, LRUCache.evictOldest]
    rw [if_neg (by simp only [List.length_nil]; omega)]
    exact List.find?_cons_of_pos _ (by simp)
  | cons a t ih =>
    intro hall
    simp only [List.cons_append, LRUCache.evictOldest, List.append_eq]
    by_cases hlen : (t ++ [(k, v, ts)]).length + 1 > max
    · rw [if_pos hlen]
      exact ih (fun e he => hall e (List.mem_cons_of_mem a he))
    · rw [if_neg hlen,
        List.find?_cons_of_neg _ (by simp [hall a (List.mem_cons_self a t)])]
      exact find?_append_last k (k, v, ts) (by simp) t
        (fun e he => hall e (List.mem_cons_of_mem a he))

theorem get_preserves_config {α : Type} (c : LRUCache α) (k : String) (now : Nat) :
    ((c.get k now).2).ttl_seconds = c.ttl_seconds ∧
    ((c.get k now).2).max_size = c.max_size := by
  simp only [LRUCache.get]
  cases h : c.entries.find? (fun e => e.1 == k) with
  | none => exact ⟨rfl, rfl⟩
  | some e =>
    cases e with
    | mk k' p =>
      cases p with
      | mk v ts =>
        by_cases hexp : c.isExpired now ts = true
        · simp [hexp]
        · simp [hexp]

theorem put_get_same {α : Type} [DecidableEq α] (c : LRUCache α) (k : String) (v : α)
    (tput tget : Nat) (hmax : 1 ≤ c.max_size)
    (hexp : c.isExpired tget tput = false) :
    ((c.put k v tput).get k tget).1 = some v := by
  have hfind : ((c.put k v tput).entries).find? (fun e => e.1 == k) = some (k, v, tput) := by
    simp only [LRUCache.put]
    refine evictOldest_find c.max_size hmax k v tput _ ?_
    intro e he
    have h2 := (List.mem_filter.mp he).2
    simpa using h2
  simp only [LRUCache.get, hfind]
  have hexp' : (c.put k v tput).isExpired tget tput = false := hexp
  rw [hexp']
  simp

theorem search_miss_eq {V : Type} (o : SpacyOracle V) (store : MemoryStore)
    (st : SearchState) (q : SearchQuery) (now : Nat)
    (hm : isTruthy ((st.query_cache.get (generateCacheKey q) now).1) = false) :
    search o store st q now =
      searchCore o store
        { query_cache := (st.query_cache.get (generateCacheKey q) now).2
          search_count := st.search_count + 1
          cache_hits := st.cache_hits } q now := by
  simp only [search]
  cases hg : (st.query_cache.get (generateCacheKey q) now).1 with
  | none => simp [hg]
  | some l =>
    cases l with
    | nil => simp [hg]
    | cons r rs =>
      rw [hg] at hm
      simp [isTruthy] at hm

/-- C7: when a query is issued twice, the first call missing the cache and
returning a non-empty result list, and the second call falls inside the TTL
window, the second call returns exactly the first call's results and its
metrics report zero candidates, zero filtered candidates and zero similarity
calculations. -/
theorem C7_cache_hit {V : Type} (o : SpacyOracle V) (store : MemoryStore)
    (st : SearchState) (q : SearchQuery) (t1 t2 T : Nat)
    (hmiss : isTruthy ((st.query_cache.get (generateCacheKey q) t1).1) = false)
    (hmax : 1 ≤ st.query_cache.max_size)
    (httl : st.query_cache.ttl_seconds = some T)
    (hwin : t2 - t1 ≤ T)
    (hne : (search o store st q t1).1 ≠ []) :
    (search o store ((search o store st q t1).2.2) q t2).1 =
      (search o store st q t1).1 ∧
    (search o store ((search o store st q t1).2.2) q t2).2.1.total_candidates = 0 ∧
    (search o store ((search o store st q t1).2.2) q t2).2.1.filtered_candidates = 0 ∧
    (search o store ((search o store st q t1).2.2) q t2).2.1.similarity_calculations
      = 0 := by
  rw [search_miss_eq o store st q t1 hmiss] at hne ⊢
  cases hpq : processSearchQuery o q.text with
  | none => simp [searchCore, hpq] at hne
  | some pq =>
    simp only [searchCore, hpq] at hne ⊢
    set final := applyFinalFilters
      (rankSearchResults o t1 pq (getSearchCandidates store q) q) q with hfinal
    set c1 := (st.query_cache.get (generateCacheKey q) t1).2 with hc1
    have hget : ((c1.put (generateCacheKey q) final t1).get (generateCacheKey q) t2).1
        = some final := by
      refine put_get_same c1 (generateCacheKey q) final t1 t2 ?_ ?_
      · rw [hc1, (get_preserves_config st.query_cache (generateCacheKey q) t1).2]
        exact hmax
      · simp only [LRUCache.isExpired, hc1,
          (get_preserves_config st.query_cache (generateCacheKey q) t1).1, httl]
        simp only [decide_eq_false_iff_not, gt_iff_lt, not_lt]
        exact hwin
    simp only [search]
    rw [hget]
    cases hf : final with
    | nil => exact absurd hf hne
    | cons r rs => simp

/-- Witness for C7 on a concrete store and query. -/
theorem C7_cache_hit_witness :
    (search noVecOracle hitStore
        ((search noVecOracle hitStore initialSearchState hitQuery 0).2.2)
        hitQuery 100).1 =
      (search noVecOracle hitStore initialSearchState hitQuery 0).1 ∧
    (search noVecOracle hitStore
        ((search noVecOracle hitStore initialSearchState hitQuery 0).2.2)
        hitQuery 100).2.1.similarity_calculations = 0 :=
  ⟨(C7_cache_hit noVecOracle hitStore initialSearchState hitQuery 0 100 300
      (by decide) (by decide) rfl (by decide) (by decide)).1,
   (C7_cache_hit noVecOracle hitStore initialSearchState hitQuery 0 100 300
      (by decide) (by decide) rfl (by decide) (by decide)).2.2.2⟩

/-- C9: a cached empty result list is treated as a cache miss — the
`if cached_results:` truthiness check — so a repeat of a zero-result query
re-runs candidate retrieval and scoring: the results are freshly recomputed
and the metrics count the candidates and similarity computations instead of
reporting a zero-cost hit. -/
theorem C9_empty_never_served {V : Type} (o : SpacyOracle V) (store : MemoryStore)
    (st : SearchState) (q : SearchQuery) (now : Nat) (pq : ProcessedDocument V)
    (hc : (st.query_cache.get (generateCacheKey q) now).1 = some [])
    (hq : processSearchQuery o q.text = some pq) :
    (search o store st q now).1 =
      applyFinalFilters (rankSearchResults o now pq (getSearchCandidates store q) q) q ∧
    (search o store st q now).2.1.total_candidates =
      (getSearchCandidates store q).length ∧
    (search o store st q now).2.1.similarity_calculations =
      (getSearchCandidates store q).length := by
  rw [search_miss_eq o store st q now (by rw [hc]; rfl)]
  simp [searchCore, hq]

/-- Witness for C9: a concrete state caching `[]` for the query still
performs the full candidate scan. -/
theorem C9_empty_never_served_witness :
    (search noVecOracle hitStore emptyCachedState hitQuery 10).2.1.total_candidates =
      (getSearchCandidates hitStore hitQuery).length :=
  (C9_empty_never_served noVecOracle hitStore emptyCachedState hitQuery 10
    (noVecOracle.processDoc "hello") (by decide) rfl).2.1

/-! ## Claim C8: relevance-score monotonicity -/

theorem mkRat_three_two : (mkRat 3 2 : ℚ) = 3 / 2 := by
  rw [Rat.mkRat_eq_divInt, Rat.divInt_eq_div]
  norm_num

theorem constOracle_processDoc_vector (s : ℚ) (t : String) :
    ((constOracle s).processDoc t).vector = some () := rfl

theorem constOracle_cosine (s : ℚ) (v w : Unit) : (constOracle s).cosine v w = s := rfl

set_option maxHeartbeats 1000000 in
/-- Amended C8: with vector similarity constantly `s` and a common keyword
score `k`, the candidate matching only on title scores no more than the
candidate that additionally matches on description and captions, **provided
`k ≤ s`** (the failed original claim allowed any `k`); both scores lie in
`[0, 1]`. -/
theorem C8_score_monotone (s k : ℚ) (A B : VideoIndexEntry)
    (pq : ProcessedDocument Unit) (q : SearchQuery) (now : Nat) (d c : String)
    (hs0 : 0 ≤ s) (hs1 : s ≤ 1) (hk0 : 0 ≤ k) (hks : k ≤ s)
    (hv : pq.vector = some ())
    (htitle : A.title ≠ "")
    (hdesc : A.description = "")
    (hcontent : A.searchable_content = [])
    (hd : d ≠ "") (hc : c ≠ "")
    (hB : B = { A with
      description := d
      searchable_content := [{ content_type := .captions_vtt, text := c }] })
    (hkA : calcKeywordScore pq A = k) (hkB : calcKeywordScore pq B = k)
    (hqt : q.tags = none) (hqb : q.boost_recent = false) :
    calcRelevanceScore (constOracle s) now pq A q ≤
      calcRelevanceScore (constOracle s) now pq B q ∧
    0 ≤ calcRelevanceScore (constOracle s) now pq A q ∧
    calcRelevanceScore (constOracle s) now pq A q ≤ 1 ∧
    0 ≤ calcRelevanceScore (constOracle s) now pq B q ∧
    calcRelevanceScore (constOracle s) now pq B q ≤ 1 := by
  have hkB' : calcKeywordScore pq
      ({ A with
         description := d
         searchable_content := [{ content_type := .captions_vtt, text := c }] }) = k := by
    rw [← hB]
    exact hkB
  have hA : calcRelevanceScore (constOracle s) now pq A q
      = min 1 (max 0 ((s * 3 + k) / (3 + 1))) := by
    simp only [calcRelevanceScore, hv, constOracle_processDoc_vector,
      calcVectorSimilarity, constOracle_cosine, hdesc, hcontent,
      hkA, hqt, hqb, truthyList, htitle, ne_eq, not_false_iff, if_true, if_false,
      List.foldl_nil, Bool.false_eq_true]
    simp only [qadd_eq, qmul_eq, qdiv_eq, qmin_eq, qmax_eq, qlt, decide_eq_true_eq]
    rw [min_eq_right hs1, max_eq_right hs0]
    rw [if_pos (by norm_num)]
    norm_num
  have hB' : calcRelevanceScore (constOracle s) now pq B q
      = min 1 (max 0 ((s * 3 + s * 2 + s * (3 / 2) + k) / (3 + 2 + 3 / 2 + 1))) := by
    subst hB
    simp only [calcRelevanceScore, hv, constOracle_processDoc_vector,
      calcVectorSimilarity, constOracle_cosine, hkB', hqt, hqb,
      truthyList, htitle, hd, hc, ne_eq, not_false_iff, if_true, if_false,
      List.foldl_cons, List.foldl_nil, getContentTypeWeight, Bool.false_eq_true]
    simp only [qadd_eq, qmul_eq, qdiv_eq, qmin_eq, qmax_eq, qlt, decide_eq_true_eq,
      mkRat_three_two]
    rw [min_eq_right hs1, max_eq_right hs0]
    rw [if_pos (by norm_num)]
    ring_nf
  have hfrac : (s * 3 + k) / (3 + 1) ≤
      (s * 3 + s * 2 + s * (3 / 2) + k) / (3 + 2 + 3 / 2 + 1) := by
    rw [div_le_div_iff₀ (by norm_num) (by norm_num)]
    nlinarith [hks]
  refine ⟨?_, ?_, ?_, ?_, ?_⟩
  · rw [hA, hB']
    exact min_le_min le_rfl (max_le_max le_rfl hfrac)
  · rw [hA]
    exact le_min (by norm_num) (le_max_left 0 _)
  · rw [hA]
    exact min_le_left 1 _
  · rw [hB']
    exact le_min (by norm_num) (le_max_left 0 _)
  · rw [hB']
    exact min_le_left 1 _

/-- Counterexample to C8 as stated: at similarity `s = 0` and keyword score
`k = 1` (both in `[0, 1]`), adding description and captions evidence lowers
the weighted average: the title-only candidate scores 1/4 while the richer
candidate scores 2/15, so monotonicity fails without the `k ≤ s` proviso. -/
theorem C8_counterexample :
    calcKeywordScore cexQueryDoc candA8 = 1 ∧
    calcKeywordScore cexQueryDoc candB8 = 1 ∧
    calcRelevanceScore (constOracle 0) 0 cexQueryDoc candA8 q8 = mkRat 1 4 ∧
    calcRelevanceScore (constOracle 0) 0 cexQueryDoc candB8 q8 = mkRat 2 15 ∧
    ¬ (calcRelevanceScore (constOracle 0) 0 cexQueryDoc candA8 q8 ≤
        calcRelevanceScore (constOracle 0) 0 cexQueryDoc candB8 q8) :=
  ⟨by decide, by decide, by decide, by decide, by decide⟩

/-- Witness for the amended C8 at `s = k = 1`. -/
theorem C8_score_monotone_witness :
    calcRelevanceScore (constOracle 1) 0 cexQueryDoc candA8 q8 ≤
      calcRelevanceScore (constOracle 1) 0 cexQueryDoc candB8 q8 :=
  (C8_score_monotone 1 1 candA8 candB8 cexQueryDoc q8 0 "cat" "cat"
    (by decide) (by decide) (by decide) (by decide) rfl (by decide) rfl rfl
    (by decide) (by decide) rfl (by decide) (by decide) rfl rfl).1

/-! ## Claim C2: phrase filtering -/

/-- Amended C2: with phrases present, the phrase-search output consists of
exactly the base-search results whose **check string — title, description
and the matched content texts** (not the full combined text of the entry,
which also interposes the tags) — contains every phrase case-insensitively,
each with its score boosted by 1.2 and clamped to 1. -/
theorem C2_phrase_filter {V : Type} (o : SpacyOracle V) (store : MemoryStore)
    (st : SearchState) (q : SearchQuery) (phrases : List String) (now : Nat)
    (hph : phrases ≠ []) (r : SearchResult) :
    r ∈ (searchWithPhrases o store st q phrases now).1 ↔
      ∃ r0 ∈ (search o store st q now).1,
        (∀ p ∈ phrases, strContains (phraseCheckText r0) (pyLower p) = true) ∧
        r = { r0 with relevance_score := qmin 1 (qmul r0.relevance_score (mkRat 6 5)) } := by
  simp only [searchWithPhrases]
  rw [if_neg hph]
  rw [List.Perm.mem_iff (List.perm_insertionSort _ _)]
  simp only [List.mem_map, List.mem_filter]
  constructor
  · rintro ⟨r0, ⟨hr0mem, hall⟩, rfl⟩
    exact ⟨r0, hr0mem, fun p hp => List.all_eq_true.mp hall p hp, rfl⟩
  · rintro ⟨r0, hr0mem, hall, rfl⟩
    exact ⟨r0, ⟨hr0mem, List.all_eq_true.mpr (fun p hp => hall p hp)⟩, rfl⟩

/-- Witness for the amended C2: the concrete boosted result is in the
phrase-search output because its check string contains the phrase. -/
theorem C2_phrase_filter_witness :
    phraseBoosted ∈ (searchWithPhrases noVecOracle phraseStore initialSearchState
      phraseSQ ["big cat"] 0).1 :=
  (C2_phrase_filter noVecOracle phraseStore initialSearchState phraseSQ ["big cat"] 0
    (by decide) phraseBoosted).mpr ⟨phraseBase, by decide, by decide, rfl⟩

/-- Counterexample to C2 as stated: for the query `"big cat" food`, video
`v1`'s combined text (`t big x cat food` — the tag `x` sits between the
description and the captions) does **not** contain the phrase `big cat`,
yet the phrase search returns `v1`: the code checks
title+description+matched-content (where the phrase spans the
description/content boundary), not the entry's combined text. -/
theorem C2_counterexample :
    (searchWithPhraseSupport noVecOracle phraseStore initialSearchState
        "\"big cat\" food" 10 0).1.map (fun r => r.video_id) = ["v1"] ∧
    strContains (pyLower (VideoIndexEntry.get_all_text phraseEntry)) (pyLower "big cat")
      = false ∧
    phraseStore.get_video_index "v1" = some phraseEntry :=
  ⟨by decide, by decide, by decide⟩

/-! ## Claim C1: pagination -/

theorem search_results_miss {V : Type} (o : SpacyOracle V) (store : MemoryStore)
    (st : SearchState) (q : SearchQuery) (now : Nat) (pq : ProcessedDocument V)
    (hm : isTruthy ((st.query_cache.get (generateCacheKey q) now).1) = false)
    (hq : processSearchQuery o q.text = some pq) :
    (search o store st q now).1 =
      applyFinalFilters (rankSearchResults o now pq (getSearchCandidates store q) q) q := by
  rw [search_miss_eq o store st q now hm]
  simp [searchCore, hq]

theorem applyFinalFilters_length (ranked : List (VideoIndexEntry × ℚ)) (q : SearchQuery) :
    (applyFinalFilters ranked q).length = min q.limit ranked.length := by
  simp [applyFinalFilters]

theorem rank_limit_irrelevant {V : Type} (o : SpacyOracle V) (store : MemoryStore)
    (text : String) (now : Nat) (L : Nat) (pq : ProcessedDocument V)
    (hq : processSearchQuery o text = some pq) :
    rankSearchResults o now pq (getSearchCandidates store { text := text, limit := L })
      { text := text, limit := L } = pagAllRanked o store text now := by
  simp only [pagAllRanked, hq]
  rfl

theorem searchWithPagination_spec {V : Type} (o : SpacyOracle V) (store : MemoryStore)
    (st : SearchState) (text : String) (page size now L : Nat)
    (hL : (page - 1) * size + size * 2 = L) :
    ((searchWithPagination o store st text page size now).1.results.length =
      min size ((search o store st
        { text := text, limit := L } now).1.length - (page - 1) * size)) ∧
    ((searchWithPagination o store st text page size now).1.total_results =
      (search o store st { text := text, limit := L } now).1.length) ∧
    ((searchWithPagination o store st text page size now).1.total_pages =
      ((search o store st { text := text, limit := L } now).1.length
          + size - 1) / size) ∧
    ((searchWithPagination o store st text page size now).1.has_next =
      decide (page < ((search o store st
        { text := text, limit := L } now).1.length + size - 1) / size)) ∧
    ((searchWithPagination o store st text page size now).1.has_previous =
      decide (page > 1)) := by
  subst hL
  refine ⟨?_, rfl, rfl, rfl, rfl⟩
  simp [searchWithPagination, List.length_take, List.length_drop]

/-- Amended C1 (three separate calls, each missing the result cache): with
exactly 25 ranked matches, page 2 shows 10 results with totalPages 3 and
hasNext true, page 3 shows 5 results with totalPages 3 and hasNext false —
but page 1, whose over-fetch limit `0 + 10*2 = 20` caps the fetched list,
reports totalResults 20 and totalPages 2 (not the accurate 25/3 the original
claim asserts), while still showing 10 results and hasNext true. -/
theorem C1_pagination_amended {V : Type} (o : SpacyOracle V) (store : MemoryStore)
    (st1 st2 st3 : SearchState) (text : String) (now : Nat)
    (h25 : (pagAllRanked o store text now).length = 25)
    (hm1 : isTruthy ((st1.query_cache.get
      (generateCacheKey { text := text, limit := 20 }) now).1) = false)
    (hm2 : isTruthy ((st2.query_cache.get
      (generateCacheKey { text := text, limit := 30 }) now).1) = false)
    (hm3 : isTruthy ((st3.query_cache.get
      (generateCacheKey { text := text, limit := 40 }) now).1) = false) :
    ((searchWithPagination o store st1 text 1 10 now).1.results.length = 10 ∧
     (searchWithPagination o store st1 text 1 10 now).1.total_results = 20 ∧
     (searchWithPagination o store st1 text 1 10 now).1.total_pages = 2 ∧
     (searchWithPagination o store st1 text 1 10 now).1.has_next = true ∧
     (searchWithPagination o store st1 text 1 10 now).1.has_previous = false) ∧
    ((searchWithPagination o store st2 text 2 10 now).1.results.length = 10 ∧
     (searchWithPagination o store st2 text 2 10 now).1.total_results = 25 ∧
     (searchWithPagination o store st2 text 2 10 now).1.total_pages = 3 ∧
     (searchWithPagination o store st2 text 2 10 now).1.has_next = true) ∧
    ((searchWithPagination o store st3 text 3 10 now).1.results.length = 5 ∧
     (searchWithPagination o store st3 text 3 10 now).1.total_results = 25 ∧
     (searchWithPagination o store st3 text 3 10 now).1.total_pages = 3 ∧
     (searchWithPagination o store st3 text 3 10 now).1.has_next = false) := by
  have hpq : ∃ pq, processSearchQuery o text = some pq := by
    cases hq : processSearchQuery o text with
    | none =>
      unfold pagAllRanked at h25
      rw [hq] at h25
      simp at h25
    | some pq => exact ⟨pq, rfl⟩
  obtain ⟨pq, hq⟩ := hpq
  have hlen : ∀ (st : SearchState) (L : Nat),
      isTruthy ((st.query_cache.get
        (generateCacheKey { text := text, limit := L }) now).1) = false →
      (search o store st { text := text, limit := L } now).1.length = min L 25 := by
    intro st L hm
    rw [search_results_miss o store st _ now pq hm hq]
    rw [applyFinalFilters_length, rank_limit_irrelevant o store text now L pq hq, h25]
  refine ⟨?_, ?_, ?_⟩
  · obtain ⟨ha, hb, hc, hd, he⟩ :=
      searchWithPagination_spec o store st1 text 1 10 now 20 (by norm_num)
    rw [hlen st1 20 hm1] at ha hb hc hd
    norm_num at ha hb hc hd he
    exact ⟨ha, hb, hc, hd, he⟩
  · obtain ⟨ha, hb, hc, hd, -⟩ :=
      searchWithPagination_spec o store st2 text 2 10 now 30 (by norm_num)
    rw [hlen st2 30 hm2] at ha hb hc hd
    norm_num at ha hb hc hd
    exact ⟨ha, hb, hc, hd⟩
  · obtain ⟨ha, hb, hc, hd, -⟩ :=
      searchWithPagination_spec o store st3 text 3 10 now 40 (by norm_num)
    rw [hlen st3 40 hm3] at ha hb hc hd
    norm_num at ha hb hc hd
    exact ⟨ha, hb, hc, hd⟩

/-- Witness for the amended C1 on the concrete 25-video store. -/
theorem C1_pagination_amended_witness :
    (searchWithPagination noVecOracle pagStore initialSearchState "hello" 2 10 0).1.total_pages
      = 3 ∧
    (searchWithPagination noVecOracle pagStore initialSearchState "hello" 3 10 0).1.results.length
      = 5 :=
  ⟨(C1_pagination_amended noVecOracle pagStore initialSearchState initialSearchState
      initialSearchState "hello" 0 (by decide) (by decide) (by decide)
      (by decide)).2.1.2.2.1,
   (C1_pagination_amended noVecOracle pagStore initialSearchState initialSearchState
      initialSearchState "hello" 0 (by decide) (by decide) (by decide)
      (by decide)).2.2.1⟩

/-- Counterexample to C1 as stated: on a store where the query `hello`
matches exactly 25 indexed videos, page 1 (pageSize 10) reports
`total_pages = 2` and `total_results = 20` — the over-fetch limit
`offset + pageSize*2 = 20` caps the list the totals are computed from — not
the accurate `total_pages = 3` over 25 matches that the claim asserts for
page 1. -/
theorem C1_counterexample :
    (pagAllRanked noVecOracle pagStore "hello" 0).length = 25 ∧
    (searchWithPagination noVecOracle pagStore initialSearchState "hello" 1 10 0).1.total_pages
      = 2 ∧
    (searchWithPagination noVecOracle pagStore initialSearchState "hello" 1 10 0).1.total_results
      = 20 ∧
    ¬ ((searchWithPagination noVecOracle pagStore initialSearchState "hello" 1 10 0).1.total_pages
      = 3) :=
  ⟨by decide, by decide, by decide, by decide⟩
